import Mathlib

/-!
Verification of the Realtime Update Hub of the task-management backend
(`setupWebSocket`, `validateTaskUpdate`, `calculateTeamPerformance`).

The hub is a single-threaded event-driven component: it owns a registry of
authenticated connections, a set of performance subscribers, and delegates
task persistence to a relational store.  We embed it shallowly:

* database rows become Lean structures; the tables become lists;
* timestamps are modelled as integers (the source stores `Date` values
  obtained from nonempty ISO strings; only their presence/absence and
  ordering matter to the code, and a present timestamp string is nonempty,
  hence truthy in the source's conditionals);
* each event-handler callback becomes a pure function from the hub state and
  the inbound event to the successor state together with the list of
  messages sent, tagged by the id of the destination connection;
* `JSON.parse` results are modelled by `RawMsg`: either `notJson`
  (the parse throws) or a `JsonShape` record of the fields the two
  handlers inspect, each field optional since nothing validates the shape.
-/

namespace Hub

/-- A row of the `tasks` table, restricted to the columns the hub reads or
writes: id, assignee, status, completion timestamp, update timestamp,
deadline. -/
structure Task where
  id : Int
  assignedTo : Int
  status : String
  completedAt : Option Int
  updatedAt : Int
  deadline : Option Int
deriving DecidableEq, Repr

/-- A row of the `task_activities` table as inserted by the hub. -/
structure Activity where
  id : Int
  taskId : Int
  userId : Int
  action : String
  createdAt : Int
deriving DecidableEq, Repr

/-- A row of the `users` table, restricted to the columns used by
`calculateTeamPerformance`. -/
structure User where
  id : Int
  username : String
  fullName : String
  role : String
deriving DecidableEq, Repr

/-- A row of the `document_comments` table, restricted to the author
column (the only one the performance query touches). -/
structure DocumentComment where
  userId : Int
deriving DecidableEq, Repr

/-- The relational store as seen by the hub: the four tables it queries,
plus the serial counter that produces ids for inserted activities. -/
structure Db where
  users : List User
  tasks : List Task
  comments : List DocumentComment
  activities : List Activity
  nextActivityId : Int
deriving DecidableEq, Repr

/-! ## `validateTaskUpdate` (source lines 324-344) -/

/-- The outcome of the JavaScript property read
`validTransitions[currentStatus]` on the object literal of source line 325:
one of the four own keys yields its string array; a key inherited from
`Object.prototype` (such as `toString`) yields that prototype member — a
truthy value that is not an array; any other key yields `undefined`. -/
inductive TransitionLookup where
  | ownKey (allowed : List String)
  | inherited
  | absent
deriving DecidableEq, Repr

/-- The string-keyed properties every plain object literal inherits from
`Object.prototype`; reading any of them on the transition table yields a
truthy non-array value. -/
def objectPrototypeKeys : List String :=
  ["constructor", "hasOwnProperty", "isPrototypeOf", "propertyIsEnumerable",
    "toLocaleString", "toString", "valueOf", "__defineGetter__", "__defineSetter__",
    "__lookupGetter__", "__lookupSetter__", "__proto__"]

/-- The lookup `validTransitions[currentStatus]` performed by
`validateTaskUpdate`: the four own keys of the fixed transition table,
then the prototype chain, then `undefined`. -/
def validTransitions (currentStatus : String) : TransitionLookup :=
  if currentStatus = "pending" then .ownKey ["in_progress", "completed", "cancelled"]
  else if currentStatus = "in_progress" then .ownKey ["completed", "cancelled", "pending"]
  else if currentStatus = "completed" then .ownKey ["pending"]
  else if currentStatus = "cancelled" then .ownKey ["pending"]
  else if currentStatus ∈ objectPrototypeKeys then .inherited
  else .absent

/-- The rejection message for a listed current status with an unlisted next
status (template literal at source line 339; `\x27` is the ASCII
apostrophe). -/
def invalidTransitionMessage (currentStatus newStatus : String) (allowed : List String) : String :=
  "Cannot change task status from \x27" ++ currentStatus ++ "\x27 to \x27" ++ newStatus ++
    "\x27. Valid transitions are: " ++ String.intercalate ", " allowed

/-- Return value of `validateTaskUpdate`: `isValid` plus an optional
human-readable message (present exactly on the rejecting branches). -/
structure ValidationResult where
  isValid : Bool
  message : Option String
deriving DecidableEq, Repr

instance instDecEqExcept {ε α : Type} [DecidableEq ε] [DecidableEq α] :
    DecidableEq (Except ε α) := fun a b =>
  match a, b with
  | Except.error x, Except.error y =>
    if h : x = y then isTrue (congrArg Except.error h)
    else isFalse fun hc => h (Except.error.inj hc)
  | Except.ok x, Except.ok y =>
    if h : x = y then isTrue (congrArg Except.ok h)
    else isFalse fun hc => h (Except.ok.inj hc)
  | Except.error _, Except.ok _ => isFalse fun hc => Except.noConfusion hc
  | Except.ok _, Except.error _ => isFalse fun hc => Except.noConfusion hc

/-- `validateTaskUpdate(currentStatus, newStatus)`.  The falsy guard of
source line 332 catches only the `undefined` lookup; when the lookup hits
an inherited `Object.prototype` member the guard passes and line 336 calls
`.includes` on a non-array value, which throws a TypeError — modelled as
`Except.error`. -/
def validateTaskUpdate (currentStatus newStatus : String) : Except Unit ValidationResult :=
  match validTransitions currentStatus with
  | TransitionLookup.absent =>
    Except.ok ⟨false, some ("Invalid current status: " ++ currentStatus)⟩
  | TransitionLookup.inherited => Except.error ()
  | TransitionLookup.ownKey allowed =>
    if newStatus ∈ allowed then Except.ok ⟨true, none⟩
    else Except.ok ⟨false, some (invalidTransitionMessage currentStatus newStatus allowed)⟩

/-! ## `calculateTeamPerformance` (source lines 45-123) -/

/-- JavaScript's `Math.round` on a (non-negative, in all uses here)
rational: round half toward positive infinity. -/
def jsRound (q : ℚ) : ℤ := ⌊q + 1 / 2⌋

/-- The SQL predicate `tasks.completed_at <= tasks.deadline`: a comparison
involving a NULL is not satisfied. -/
def completedOnTime (t : Task) : Bool :=
  match t.completedAt, t.deadline with
  | some c, some d => c ≤ d
  | _, _ => false

/-- The metrics object computed for one team member. -/
structure Metrics where
  tasksCompleted : ℕ
  onTimeCompletion : ℤ
  documentComments : ℕ
  collaborationScore : ℕ
  totalScore : ℤ
deriving DecidableEq, Repr

/-- One entry of the team-performance snapshot. -/
structure MemberPerf where
  id : Int
  username : String
  fullName : String
  role : String
  metrics : Metrics
deriving DecidableEq, Repr

/-- The per-member body of `calculateTeamPerformance`: the five aggregate
counts are the row counts of the source's five SQL queries over `db`, and
the derived metrics follow source lines 80-104. -/
def memberPerformance (db : Db) (member : User) : MemberPerf :=
  let tasksCompleted :=
    (db.tasks.filter (fun t => t.assignedTo = member.id ∧ t.status = "completed")).length
  let totalTasks := (db.tasks.filter (fun t => t.assignedTo = member.id)).length
  let onTimeTasks :=
    (db.tasks.filter (fun t =>
      t.assignedTo = member.id ∧ t.status = "completed" ∧ completedOnTime t)).length
  let onTimeCompletionRate : ℤ :=
    if totalTasks > 0 then jsRound ((onTimeTasks : ℚ) / (totalTasks : ℚ) * 100) else 100
  let comments := (db.comments.filter (fun c => c.userId = member.id)).length
  let activities := (db.activities.filter (fun a => a.userId = member.id)).length
  let collaborationScore := min 100 activities
  let totalScore : ℤ :=
    jsRound (((tasksCompleted : ℚ) * 40 + (onTimeCompletionRate : ℚ) * 30 +
      (min (comments * 10) 100 : ℚ) * 15 + (collaborationScore : ℚ) * 15) / 100)
  { id := member.id
    username := member.username
    fullName := member.fullName
    role := member.role
    metrics :=
      { tasksCompleted := tasksCompleted
        onTimeCompletion := onTimeCompletionRate
        documentComments := comments
        collaborationScore := collaborationScore
        totalScore := totalScore } }

/-- `calculateTeamPerformance()`: one entry per user whose role is
`team_member`. -/
def calculateTeamPerformance (db : Db) : List MemberPerf :=
  (db.users.filter (fun u => u.role = "team_member")).map (memberPerformance db)

/-- Reference (spec-side) metrics, written from the spec's formulas:
`onTimeCompletionRate = round(onTimeCompleted / totalAssigned * 100)`,
defined as 100 when `totalAssigned = 0`; `collaborationScore =
min(100, activities)`; `totalScore = round((tasksCompleted*40 +
onTimeCompletionRate*30 + min(documentComments*10,100)*15 +
collaborationScore*15) / 100)`; "on time" means status completed and
completion timestamp at most the deadline. -/
def specMetrics (db : Db) (member : User) : Metrics :=
  let tasksCompleted :=
    (db.tasks.filter (fun t => t.assignedTo = member.id ∧ t.status = "completed")).length
  let totalAssigned := (db.tasks.filter (fun t => t.assignedTo = member.id)).length
  let onTimeCompleted :=
    (db.tasks.filter (fun t =>
      t.assignedTo = member.id ∧ t.status = "completed" ∧ completedOnTime t)).length
  let onTimeCompletionRate : ℤ :=
    if totalAssigned = 0 then 100
    else jsRound ((onTimeCompleted : ℚ) / (totalAssigned : ℚ) * 100)
  let documentComments := (db.comments.filter (fun c => c.userId = member.id)).length
  let collaborationScore :=
    min 100 (db.activities.filter (fun a => a.userId = member.id)).length
  { tasksCompleted := tasksCompleted
    onTimeCompletion := onTimeCompletionRate
    documentComments := documentComments
    collaborationScore := collaborationScore
    totalScore :=
      jsRound (((tasksCompleted : ℚ) * 40 + (onTimeCompletionRate : ℚ) * 30 +
        (min (documentComments * 10) 100 : ℚ) * 15 + (collaborationScore : ℚ) * 15) / 100) }

/-! ## Hub state and wire messages (`setupWebSocket`, source lines 125-322) -/

/-- A registry entry (`interface Client`, minus the raw channel handle:
channel liveness lives in `HubState.openConns`). -/
structure Client where
  id : String
  userId : Int
  username : String
deriving DecidableEq, Repr

/-- An activity as embedded in `task_update` / `task_update_success`
payloads: the inserted row's id, action and timestamp, enriched with the
sender's user id and username. -/
structure EnrichedActivity where
  id : Int
  action : String
  createdAt : Int
  userId : Int
  username : String
deriving DecidableEq, Repr

/-- Outbound wire messages of the hub. -/
inductive OutMsg where
  /-- `{ type: 'connected', message }` — post-handshake acknowledgment. -/
  | connected (message : String)
  /-- `{ type: 'error', code, message }`. -/
  | error (code : String) (message : String)
  /-- `{ type: 'task_update', task, activity }` — broadcast to others. -/
  | taskUpdate (task : Task) (activity : EnrichedActivity)
  /-- `{ type: 'task_update_success', task, activity }` — to the sender. -/
  | taskUpdateSuccess (task : Task) (activity : EnrichedActivity)
  /-- `{ type: 'team_performance', members }`. -/
  | teamPerformance (members : List MemberPerf)
deriving DecidableEq, Repr

/-- The `changes` object of an inbound `task_update`.  `completedAt` is
`null` or a timestamp (a nonempty date string, hence truthy). -/
structure Changes where
  status : String
  completedAt : Option Int
  updatedAt : Int
deriving DecidableEq, Repr

/-- The fields of a parsed JSON object that either handler inspects.
Nothing validates inbound shapes, so every field may be absent. -/
structure JsonShape where
  type : Option String
  userId : Option Int
  username : Option String
  taskId : Option Int
  changes : Option Changes
deriving DecidableEq, Repr

/-- The result of `JSON.parse(data.toString())`: either the parse throws
(`notJson`) or it yields an object whose relevant fields are `json j`. -/
inductive RawMsg where
  | notJson
  | json (j : JsonShape)
deriving DecidableEq, Repr

/-- JavaScript truthiness of a possibly-absent number (`0` is falsy). -/
def truthyInt : Option Int → Bool
  | none => false
  | some n => n ≠ 0

/-- JavaScript truthiness of a possibly-absent string (`""` is falsy). -/
def truthyStr : Option String → Bool
  | none => false
  | some s => s ≠ ""

/-- The hub's in-memory state: the connection registry (`clients` map, in
insertion order), the performance-subscription set, the set of ids whose
underlying channel is open, the set of ids whose one-shot handshake
listener has not yet consumed a message, and the delegated store. -/
structure HubState where
  clients : List (String × Client)
  performanceSubscribers : List String
  openConns : List String
  authPending : List String
  db : Db
deriving DecidableEq, Repr

/-- `Set.add`: insert a connection id if not already present. -/
def addSub (cid : String) (l : List String) : List String :=
  if cid ∈ l then l else cid :: l

/-- `Map.get` on an association list in insertion order (first match). -/
def lookupKey {β : Type} (x : String) : List (String × β) → Option β
  | [] => none
  | p :: t => if x = p.1 then some p.2 else lookupKey x t

/-- Is `cid` a key of the connection registry? -/
def registered (st : HubState) (cid : String) : Bool :=
  (lookupKey cid st.clients).isSome

/-- The iteration inside `broadcastToClients`: send `msg` to every entry of
`clients` except `excl`, provided its channel (`readyState`) is open. -/
def broadcastList (clients : List (String × Client)) (opens : List String) (msg : OutMsg)
    (excl : Option String) : List (String × OutMsg) :=
  clients.filterMap (fun p =>
    if excl = some p.1 then none
    else if p.1 ∈ opens then some (p.1, msg) else none)

/-- `broadcastToClients` (source lines 155-167): send `msg` to every
registry entry except `excludeClientId`, provided its channel is open.
Returns the (destination, message) pairs in registry order. -/
def broadcastToClients (st : HubState) (msg : OutMsg) (excludeClientId : Option String) :
    List (String × OutMsg) :=
  broadcastList st.clients st.openConns msg excludeClientId

/-- `broadcastTeamPerformance` (source lines 136-153): recompute the
snapshot and send it to every subscriber that is still in the registry and
whose channel is open. -/
def broadcastTeamPerformance (st : HubState) : List (String × OutMsg) :=
  st.performanceSubscribers.filterMap (fun cid =>
    match lookupKey cid st.clients with
    | some _ => if cid ∈ st.openConns
        then some (cid, OutMsg.teamPerformance (calculateTeamPerformance st.db))
        else none
    | none => none)

/-- The row update of source lines 229-233: set status, completion
timestamp (`changes.completedAt ? new Date(...) : null`, and a present
timestamp string is nonempty hence truthy) and update timestamp. -/
def applyChanges (ch : Changes) (t : Task) : Task :=
  { t with status := ch.status, completedAt := ch.completedAt, updatedAt := ch.updatedAt }

/-- The write phase of a validated `task_update` (source lines 226-278):
the atomic `update ... returning` on the rows matching the task id, the
unconditional insert of the activity record, and — only when the update
returned a row — the broadcast to the other clients followed by the
success reply to the sender. -/
def handleTaskUpdateWrite (st : HubState) (cid : String) (client : Client) (taskId : Int)
    (ch : Changes) (currentStatus : String) (now : Int) : HubState × List (String × OutMsg) :=
  let updatedTask := (st.db.tasks.find? (fun t => t.id = taskId)).map (applyChanges ch)
  let tasks := st.db.tasks.map (fun t => if t.id = taskId then applyChanges ch t else t)
  let activity : Activity :=
    { id := st.db.nextActivityId
      taskId := taskId
      userId := client.userId
      action := "Status changed from " ++ currentStatus ++ " to " ++ ch.status
      createdAt := now }
  let st : HubState :=
    { st with db := { st.db with
        tasks := tasks
        activities := st.db.activities ++ [activity]
        nextActivityId := st.db.nextActivityId + 1 } }
  match updatedTask with
  | some task =>
    let enriched : EnrichedActivity :=
      { id := activity.id, action := activity.action, createdAt := activity.createdAt
        userId := client.userId, username := client.username }
    (st, broadcastToClients st (OutMsg.taskUpdate task enriched) (some cid) ++
      [(cid, OutMsg.taskUpdateSuccess task enriched)])
  | none => (st, [])

/-- The read-and-validate phase of `task_update` (source lines 199-224):
fetch the current row (`limit 1`), reject with `TASK_NOT_FOUND` or
`INVALID_STATUS_TRANSITION`, otherwise proceed to the write phase.  A
TypeError thrown inside `validateTaskUpdate` (current status hitting the
prototype chain) propagates to the surrounding try's catch at source line
279, which replies `DATABASE_ERROR`. -/
def handleTaskUpdateRead (st : HubState) (cid : String) (client : Client) (taskId : Int)
    (ch : Changes) (now : Int) : HubState × List (String × OutMsg) :=
  match st.db.tasks.find? (fun t => t.id = taskId) with
  | none => (st, [(cid, OutMsg.error "TASK_NOT_FOUND" "Task not found")])
  | some currentTask =>
    match validateTaskUpdate currentTask.status ch.status with
    | Except.error _ =>
      (st, [(cid, OutMsg.error "DATABASE_ERROR" "Failed to update task in database")])
    | Except.ok validation =>
      if validation.isValid then
        handleTaskUpdateWrite st cid client taskId ch currentTask.status now
      else
        (st, [(cid, OutMsg.error "INVALID_STATUS_TRANSITION" (validation.message.getD ""))])

/-- The persistent message listener (source lines 172-288): parse failure
answers `MESSAGE_PARSE_ERROR` (before any registry check); an unregistered
sender is otherwise ignored; `subscribe_team_performance` adds the sender
to the subscription set and fires a recomputation-and-broadcast; a
`task_update` with truthy `taskId` and present `changes` runs the
read-validate-write pipeline.  Any other parsed message falls through both
`if`s and is silently ignored. -/
def handleMessage (st : HubState) (cid : String) (raw : RawMsg) (now : Int) :
    HubState × List (String × OutMsg) :=
  match raw with
  | RawMsg.notJson => (st, [(cid, OutMsg.error "MESSAGE_PARSE_ERROR" "Invalid message format")])
  | RawMsg.json j =>
    match lookupKey cid st.clients with
    | none => (st, [])
    | some client =>
      let sub := j.type = some "subscribe_team_performance"
      let st1 : HubState :=
        if sub then { st with performanceSubscribers := addSub cid st.performanceSubscribers }
        else st
      let out1 := if sub then broadcastTeamPerformance st1 else []
      match j.taskId, j.changes with
      | some taskId, some ch =>
        if j.type = some "task_update" ∧ taskId ≠ 0 then
          let r := handleTaskUpdateRead st1 cid client taskId ch now
          (r.1, out1 ++ r.2)
        else (st1, out1)
      | _, _ => (st1, out1)

/-- The one-shot handshake listener (source lines 296-311): parse failure
closes the channel; a parsed object with truthy `userId` and `username`
is registered and acknowledged; otherwise nothing happens (in particular
the channel is NOT closed). -/
def handleAuth (st : HubState) (cid : String) (raw : RawMsg) :
    HubState × List (String × OutMsg) :=
  match raw with
  | RawMsg.notJson => ({ st with openConns := st.openConns.filter (fun x => x ≠ cid) }, [])
  | RawMsg.json j =>
    match j.userId, j.username with
    | some userId, some username =>
      if userId ≠ 0 ∧ username ≠ "" then
        ({ st with clients := (cid, ⟨cid, userId, username⟩) :: st.clients },
          [(cid, OutMsg.connected "Successfully connected to real-time updates")])
      else (st, [])
    | _, _ => (st, [])

/-- Delivery of one inbound frame on connection `cid`: the persistent
listener runs first (registered first, and on a first message it returns
before any await since the sender is not yet in the registry); then, if the
one-shot handshake listener is still attached, it is detached and run on
the same frame. -/
def handleRaw (st : HubState) (cid : String) (raw : RawMsg) (now : Int) :
    HubState × List (String × OutMsg) :=
  let r1 := handleMessage st cid raw now
  if cid ∈ r1.1.authPending then
    let r2 := handleAuth { r1.1 with authPending := r1.1.authPending.filter (fun x => x ≠ cid) }
      cid raw
    (r2.1, r1.2 ++ r2.2)
  else r1

/-- The `connection` event (source lines 169-171): a fresh id (`randomUUID`
never collides) gets an open channel and an attached one-shot handshake
listener. -/
def connectConn (st : HubState) (cid : String) : HubState :=
  if cid ∈ st.openConns ∨ cid ∈ st.authPending ∨ registered st cid then st
  else { st with openConns := cid :: st.openConns, authPending := cid :: st.authPending }

/-- The `close` event (source lines 290-293): the channel is gone and the
handler removes the id from the subscription set and the registry. -/
def closeConn (st : HubState) (cid : String) : HubState :=
  { st with
    performanceSubscribers := st.performanceSubscribers.filter (fun x => x ≠ cid)
    clients := st.clients.filter (fun p => p.1 ≠ cid)
    openConns := st.openConns.filter (fun x => x ≠ cid) }

/-- The 30-second timer tick (source lines 315-319): when the subscription
set is non-empty, recompute and push the snapshot; it changes no state. -/
def tickSends (st : HubState) : List (String × OutMsg) :=
  if st.performanceSubscribers.isEmpty then [] else broadcastTeamPerformance st

/-- The hub state at server start: empty registry, no subscribers, no
connections, over an arbitrary initial store. -/
def initialState (db : Db) : HubState :=
  { clients := [], performanceSubscribers := [], openConns := [], authPending := [], db := db }

/-- The states the hub can reach: from the initial state via connection
events, inbound frames on open channels, close events, and arbitrary
external mutation of the delegated store (other route handlers share the
database). -/
inductive Reachable : HubState → Prop where
  | init (db : Db) : Reachable (initialState db)
  | connect {st : HubState} (cid : String) : Reachable st → Reachable (connectConn st cid)
  | message {st : HubState} (cid : String) (raw : RawMsg) (now : Int) :
      Reachable st → cid ∈ st.openConns → Reachable (handleRaw st cid raw now).1
  | close {st : HubState} (cid : String) : Reachable st → Reachable (closeConn st cid)
  | dbStep {st : HubState} (db : Db) : Reachable st → Reachable { st with db := db }

/-! ## A concrete scenario, used by witnesses and counterexamples -/

/-- An empty store. -/
def emptyDb : Db := ⟨[], [], [], [], 1⟩

/-- Connection `"a"` has just connected. -/
def demoConnected : HubState := connectConn (initialState emptyDb) "a"

/-- A well-formed handshake frame. -/
def handshakeRaw : RawMsg := RawMsg.json ⟨none, some 1, some "alice", none, none⟩

/-- Connection `"a"` after a successful handshake. -/
def demoRegistered : HubState := (handleRaw demoConnected "a" handshakeRaw 0).1

/-- A `subscribe_team_performance` frame. -/
def subscribeRaw : RawMsg := RawMsg.json ⟨some "subscribe_team_performance", none, none, none, none⟩

/-- Connection `"a"` after handshake and subscription. -/
def demoSubscribed : HubState := (handleRaw demoRegistered "a" subscribeRaw 0).1

/-- A completed task with id 1. -/
def demoTask : Task := ⟨1, 7, "completed", some 3, 0, some 5⟩

/-- A store holding exactly the task with id 1. -/
def demoDb : Db := ⟨[], [demoTask], [], [], 1⟩

/-- The authenticated connection `"a"` over the one-task store. -/
def demoWithTask : HubState := { demoRegistered with db := demoDb }

/-- A task whose status column holds an `Object.prototype` property name
(nothing in the hub constrains the column, and the store is shared with
other writers). -/
def demoProtoTask : Task := ⟨2, 7, "toString", none, 0, some 5⟩

/-- A store holding exactly the prototype-status task. -/
def demoProtoDb : Db := ⟨[], [demoProtoTask], [], [], 1⟩

/-- The authenticated connection `"a"` over the prototype-status store. -/
def demoWithProto : HubState := { demoRegistered with db := demoProtoDb }

/-- A team member with id 7, for the performance example. -/
def perfUser : User := ⟨7, "u", "U", "team_member"⟩

/-- A completed-on-time task assigned to user 7. -/
def perfTask (i : Int) : Task := ⟨i, 7, "completed", some 1, 0, some 2⟩

/-- The spec's worked example: 5 assigned tasks, all completed on time,
3 comments, 2 activity records. -/
def perfDb : Db :=
  ⟨[perfUser], [perfTask 1, perfTask 2, perfTask 3, perfTask 4, perfTask 5],
    [⟨7⟩, ⟨7⟩, ⟨7⟩], [⟨1, 1, 7, "x", 0⟩, ⟨2, 1, 7, "y", 0⟩], 3⟩

/-- The well-formedness invariant of the hub's connection bookkeeping:
every performance subscriber is a registry key, no registered id still has
the one-shot handshake listener attached, and registry keys are unique. -/
def WF (st : HubState) : Prop :=
  (∀ cid ∈ st.performanceSubscribers, registered st cid = true) ∧
  (∀ cid, registered st cid = true → cid ∉ st.authPending) ∧
  (st.clients.map Prod.fst).Nodup

/-! ## Association-list lemmas -/

theorem lookupKey_filter_ne {β : Type} (x cid : String) (l : List (String × β)) (h : x ≠ cid) :
    lookupKey x (l.filter (fun p => p.1 ≠ cid)) = lookupKey x l := by
  induction l with
  | nil => rfl
  | cons p t ih =>
    by_cases hp : p.1 = cid <;> by_cases hx : x = p.1 <;>
      simp_all [List.filter_cons, lookupKey]

theorem lookupKey_filter_self {β : Type} (cid : String) (l : List (String × β)) :
    lookupKey cid (l.filter (fun p => p.1 ≠ cid)) = none := by
  induction l with
  | nil => rfl
  | cons p t ih =>
    by_cases hp : p.1 = cid
    · simpa [List.filter_cons, hp] using ih
    · have hx : ¬ cid = p.1 := fun hc => hp hc.symm
      simpa [List.filter_cons, hp, lookupKey, hx] using ih

theorem lookupKey_eq_none_iff {β : Type} (x : String) (l : List (String × β)) :
    lookupKey x l = none ↔ x ∉ l.map Prod.fst := by
  induction l with
  | nil => simp [lookupKey]
  | cons p t ih => by_cases hx : x = p.1 <;> simp [lookupKey, hx, ih]

theorem lookupKey_cons_isSome {β : Type} (x : String) (p : String × β) (l : List (String × β))
    (h : (lookupKey x l).isSome = true) : (lookupKey x (p :: l)).isSome = true := by
  by_cases hx : x = p.1 <;> simp [lookupKey, hx, h]

/-! ## Shape of the handler results -/

theorem write_state_shape (st : HubState) (cid : String) (client : Client) (taskId : Int)
    (ch : Changes) (cur : String) (now : Int) :
    ∃ db, (handleTaskUpdateWrite st cid client taskId ch cur now).1 = { st with db := db } := by
  simp only [handleTaskUpdateWrite]
  split <;> exact ⟨_, rfl⟩

theorem read_state_shape (st : HubState) (cid : String) (client : Client) (taskId : Int)
    (ch : Changes) (now : Int) :
    ∃ db, (handleTaskUpdateRead st cid client taskId ch now).1 = { st with db := db } := by
  simp only [handleTaskUpdateRead]
  split
  · exact ⟨st.db, rfl⟩
  · split
    · exact ⟨st.db, rfl⟩
    · split
      · exact write_state_shape ..
      · exact ⟨st.db, rfl⟩

theorem message_state_shape (st : HubState) (cid : String) (raw : RawMsg) (now : Int) :
    ∃ subs db, (handleMessage st cid raw now).1 =
        { st with performanceSubscribers := subs, db := db } ∧
      (subs = st.performanceSubscribers ∨
        (subs = addSub cid st.performanceSubscribers ∧ registered st cid = true)) := by
  unfold handleMessage
  match raw with
  | RawMsg.notJson => exact ⟨st.performanceSubscribers, st.db, rfl, Or.inl rfl⟩
  | RawMsg.json j =>
    cases hcl : lookupKey cid st.clients with
    | none => exact ⟨st.performanceSubscribers, st.db, rfl, Or.inl rfl⟩
    | some client =>
      have hreg : registered st cid = true := by simp [registered, hcl]
      dsimp only
      by_cases hsub : j.type = some "subscribe_team_performance"
      · simp only [if_pos hsub]
        cases hti : j.taskId with
        | none =>
          cases hch : j.changes with
          | none => exact ⟨_, st.db, rfl, Or.inr ⟨rfl, hreg⟩⟩
          | some ch => exact ⟨_, st.db, rfl, Or.inr ⟨rfl, hreg⟩⟩
        | some taskId =>
          cases hch : j.changes with
          | none => exact ⟨_, st.db, rfl, Or.inr ⟨rfl, hreg⟩⟩
          | some ch =>
            have hne : ¬ (j.type = some "task_update" ∧ taskId ≠ 0) := by
              rw [hsub]
              simp
            simp only [if_neg hne]
            exact ⟨_, st.db, rfl, Or.inr ⟨rfl, hreg⟩⟩
      · simp only [if_neg hsub]
        cases hti : j.taskId with
        | none =>
          cases hch : j.changes with
          | none => exact ⟨st.performanceSubscribers, st.db, rfl, Or.inl rfl⟩
          | some ch => exact ⟨st.performanceSubscribers, st.db, rfl, Or.inl rfl⟩
        | some taskId =>
          cases hch : j.changes with
          | none => exact ⟨st.performanceSubscribers, st.db, rfl, Or.inl rfl⟩
          | some ch =>
            by_cases htu : j.type = some "task_update" ∧ taskId ≠ 0
            · simp only [if_pos htu]
              obtain ⟨db', hdb⟩ := read_state_shape st cid client taskId ch now
              exact ⟨st.performanceSubscribers, db', by rw [hdb], Or.inl rfl⟩
            · simp only [if_neg htu]
              exact ⟨st.performanceSubscribers, st.db, rfl, Or.inl rfl⟩

theorem auth_state_shape (st : HubState) (cid : String) (raw : RawMsg) :
    (handleAuth st cid raw).1 = { st with openConns := st.openConns.filter (fun x => x ≠ cid) } ∨
    (handleAuth st cid raw).1 = st ∨
    ∃ c : Client, (handleAuth st cid raw).1 = { st with clients := (cid, c) :: st.clients } := by
  cases raw with
  | notJson => exact Or.inl rfl
  | json j =>
    cases hu : j.userId with
    | none => exact Or.inr (Or.inl (by simp [handleAuth, hu]))
    | some u =>
      cases hn : j.username with
      | none => exact Or.inr (Or.inl (by simp [handleAuth, hu, hn]))
      | some n =>
        by_cases hcond : u ≠ 0 ∧ n ≠ ""
        · exact Or.inr (Or.inr ⟨⟨cid, u, n⟩, by simp [handleAuth, hu, hn, hcond]⟩)
        · exact Or.inr (Or.inl (by simp [handleAuth, hu, hn, hcond]))

/-! ## The bookkeeping invariant is preserved by every hub event -/

theorem wf_handleMessage (st : HubState) (cid : String) (raw : RawMsg) (now : Int)
    (h : WF st) : WF (handleMessage st cid raw now).1 := by
  obtain ⟨subs, db, heq, hsubs⟩ := message_state_shape st cid raw now
  obtain ⟨h1, h2, h3⟩ := h
  rw [heq]
  refine ⟨?_, ?_, h3⟩
  · intro x hx
    show registered st x = true
    rcases hsubs with hs | ⟨hs, hregc⟩
    · exact h1 x (hs ▸ hx)
    · rw [hs] at hx
      unfold addSub at hx
      by_cases hc : cid ∈ st.performanceSubscribers
      · rw [if_pos hc] at hx
        exact h1 x hx
      · rw [if_neg hc] at hx
        rcases List.mem_cons.mp hx with hxc | hxm
        · rw [hxc]; exact hregc
        · exact h1 x hxm
  · intro x hx
    exact h2 x hx

theorem wf_handleAuth (st : HubState) (cid : String) (raw : RawMsg)
    (hcid : cid ∉ st.authPending) (hunreg : registered st cid = false)
    (h : WF st) : WF (handleAuth st cid raw).1 := by
  obtain ⟨h1, h2, h3⟩ := h
  rcases auth_state_shape st cid raw with heq | heq | ⟨c, heq⟩ <;> rw [heq]
  · exact ⟨h1, h2, h3⟩
  · exact ⟨h1, h2, h3⟩
  · have hnone : lookupKey cid st.clients = none := by
      cases hlk : lookupKey cid st.clients with
      | none => rfl
      | some c0 => rw [registered, hlk] at hunreg; simp at hunreg
    refine ⟨?_, ?_, ?_⟩
    · intro x hx
      show (lookupKey x ((cid, c) :: st.clients)).isSome = true
      exact lookupKey_cons_isSome x (cid, c) st.clients (h1 x hx)
    · intro x hx
      by_cases hxc : x = cid
      · rw [hxc]; exact hcid
      · refine h2 x ?_
        rw [registered, lookupKey, if_neg hxc] at hx
        exact hx
    · simp only [List.map_cons]
      refine List.nodup_cons.mpr ⟨?_, h3⟩
      exact (lookupKey_eq_none_iff cid st.clients).mp hnone

theorem wf_handleRaw (st : HubState) (cid : String) (raw : RawMsg) (now : Int)
    (h : WF st) : WF (handleRaw st cid raw now).1 := by
  have hm : WF (handleMessage st cid raw now).1 := wf_handleMessage st cid raw now h
  unfold handleRaw
  dsimp only
  by_cases hp : cid ∈ (handleMessage st cid raw now).1.authPending
  · rw [if_pos hp]
    obtain ⟨w1, w2, w3⟩ := hm
    have h2 : WF { (handleMessage st cid raw now).1 with
        authPending := (handleMessage st cid raw now).1.authPending.filter (fun x => x ≠ cid) } := by
      refine ⟨w1, ?_, w3⟩
      intro x hx hxmem
      exact w2 x hx (List.mem_of_mem_filter hxmem)
    have hunreg : registered (handleMessage st cid raw now).1 cid = false := by
      by_cases hr : registered (handleMessage st cid raw now).1 cid = true
      · exact absurd hp (w2 cid hr)
      · simpa using hr
    have hpend2 : cid ∉
        ((handleMessage st cid raw now).1.authPending.filter (fun x => x ≠ cid)) := by
      intro hc
      have := List.of_mem_filter hc
      simp at this
    exact wf_handleAuth _ cid raw hpend2 hunreg h2
  · rw [if_neg hp]
    exact hm

theorem wf_connectConn (st : HubState) (cid : String) (h : WF st) : WF (connectConn st cid) := by
  unfold connectConn
  split
  · exact h
  · rename_i hfresh
    obtain ⟨h1, h2, h3⟩ := h
    refine ⟨h1, ?_, h3⟩
    intro x hx hxmem
    rcases List.mem_cons.mp hxmem with hxc | hxm
    · exact hfresh (Or.inr (Or.inr (by rw [← hxc]; exact hx)))
    · exact h2 x hx hxm

theorem wf_closeConn (st : HubState) (cid : String) (h : WF st) : WF (closeConn st cid) := by
  obtain ⟨h1, h2, h3⟩ := h
  refine ⟨?_, ?_, ?_⟩
  · intro x hx
    have hxm := List.mem_of_mem_filter hx
    have hxne : x ≠ cid := by
      have := List.of_mem_filter hx
      simpa using this
    show (lookupKey x (st.clients.filter (fun p => p.1 ≠ cid))).isSome = true
    rw [lookupKey_filter_ne x cid st.clients hxne]
    exact h1 x hxm
  · intro x hx
    simp only [closeConn, registered] at hx ⊢
    by_cases hxc : x = cid
    · rw [hxc, lookupKey_filter_self cid st.clients] at hx
      simp at hx
    · rw [lookupKey_filter_ne x cid st.clients hxc] at hx
      exact h2 x hx
  · exact h3.sublist ((List.filter_sublist st.clients).map Prod.fst)

/-- Every reachable hub state satisfies the bookkeeping invariant. -/
theorem reachable_wf {st : HubState} (h : Reachable st) : WF st := by
  induction h with
  | init db =>
    refine ⟨fun x hx => ?_, fun x _ hc => ?_, ?_⟩
    · simp [initialState] at hx
    · simp [initialState] at hc
    · simp [initialState]
  | connect cid _ ih => exact wf_connectConn _ cid ih
  | message cid raw now _ _ ih => exact wf_handleRaw _ cid raw now ih
  | close cid _ ih => exact wf_closeConn _ cid ih
  | dbStep db _ ih => exact ⟨ih.1, ih.2.1, ih.2.2⟩

/-! ## Unfolding lemmas for the message pipeline -/

theorem handleRaw_noPending (st : HubState) (cid : String) (raw : RawMsg) (now : Int)
    (hpend : cid ∉ st.authPending) :
    handleRaw st cid raw now = handleMessage st cid raw now := by
  have hp : cid ∉ (handleMessage st cid raw now).1.authPending := by
    obtain ⟨subs, db, heq, -⟩ := message_state_shape st cid raw now
    rw [heq]
    exact hpend
  unfold handleRaw
  dsimp only
  rw [if_neg hp]

theorem handleMessage_taskUpdate (st : HubState) (cid : String) (client : Client) (j : JsonShape)
    (taskId : Int) (ch : Changes) (now : Int)
    (hcl : lookupKey cid st.clients = some client)
    (hty : j.type = some "task_update") (hti : j.taskId = some taskId)
    (hch : j.changes = some ch) (hnz : taskId ≠ 0) :
    handleMessage st cid (RawMsg.json j) now = handleTaskUpdateRead st cid client taskId ch now := by
  unfold handleMessage
  simp only [hcl, hty, hti, hch]
  simp [hnz]

theorem handleMessage_subscribe (st : HubState) (cid : String) (client : Client) (j : JsonShape)
    (now : Int)
    (hcl : lookupKey cid st.clients = some client)
    (hty : j.type = some "subscribe_team_performance") :
    handleMessage st cid (RawMsg.json j) now =
      ({ st with performanceSubscribers := addSub cid st.performanceSubscribers },
        broadcastTeamPerformance
          { st with performanceSubscribers := addSub cid st.performanceSubscribers }) := by
  unfold handleMessage
  simp only [hcl, hty]
  cases hti : j.taskId with
  | none => cases hch : j.changes <;> rfl
  | some taskId =>
    cases hch : j.changes with
    | none => rfl
    | some ch =>
      have hne : ¬ ((some "subscribe_team_performance" : Option String) = some "task_update" ∧
          taskId ≠ 0) := by
        intro hc
        exact absurd hc.1 (by decide)
      dsimp only
      rw [if_neg hne]
      rfl

theorem read_notFound (st : HubState) (cid : String) (client : Client) (taskId : Int)
    (ch : Changes) (now : Int)
    (hfind : st.db.tasks.find? (fun t => t.id = taskId) = none) :
    handleTaskUpdateRead st cid client taskId ch now =
      (st, [(cid, OutMsg.error "TASK_NOT_FOUND" "Task not found")]) := by
  unfold handleTaskUpdateRead
  simp only [hfind]

theorem read_invalid (st : HubState) (cid : String) (client : Client) (taskId : Int)
    (ch : Changes) (now : Int) (task : Task) (v : ValidationResult)
    (hfind : st.db.tasks.find? (fun t => t.id = taskId) = some task)
    (hval : validateTaskUpdate task.status ch.status = Except.ok v)
    (hv : v.isValid = false) :
    handleTaskUpdateRead st cid client taskId ch now =
      (st, [(cid, OutMsg.error "INVALID_STATUS_TRANSITION" (v.message.getD ""))]) := by
  unfold handleTaskUpdateRead
  simp only [hfind, hval]
  rw [if_neg (by rw [hv]; exact Bool.false_ne_true)]

theorem read_dbError (st : HubState) (cid : String) (client : Client) (taskId : Int)
    (ch : Changes) (now : Int) (task : Task)
    (hfind : st.db.tasks.find? (fun t => t.id = taskId) = some task)
    (hval : validateTaskUpdate task.status ch.status = Except.error ()) :
    handleTaskUpdateRead st cid client taskId ch now =
      (st, [(cid, OutMsg.error "DATABASE_ERROR" "Failed to update task in database")]) := by
  unfold handleTaskUpdateRead
  simp only [hfind, hval]

theorem read_valid (st : HubState) (cid : String) (client : Client) (taskId : Int)
    (ch : Changes) (now : Int) (task : Task) (v : ValidationResult)
    (hfind : st.db.tasks.find? (fun t => t.id = taskId) = some task)
    (hval : validateTaskUpdate task.status ch.status = Except.ok v)
    (hv : v.isValid = true) :
    handleTaskUpdateRead st cid client taskId ch now =
      handleTaskUpdateWrite st cid client taskId ch task.status now := by
  unfold handleTaskUpdateRead
  simp only [hfind, hval]
  rw [if_pos hv]

theorem write_found (st : HubState) (cid : String) (client : Client) (taskId : Int)
    (ch : Changes) (cur : String) (now : Int) (task : Task)
    (hfind : st.db.tasks.find? (fun t => t.id = taskId) = some task) :
    handleTaskUpdateWrite st cid client taskId ch cur now =
      ({ st with db := { st.db with
          tasks := st.db.tasks.map (fun t => if t.id = taskId then applyChanges ch t else t),
          activities := st.db.activities ++ [⟨st.db.nextActivityId, taskId, client.userId,
            "Status changed from " ++ cur ++ " to " ++ ch.status, now⟩],
          nextActivityId := st.db.nextActivityId + 1 } },
        broadcastList st.clients st.openConns
            (OutMsg.taskUpdate (applyChanges ch task)
              ⟨st.db.nextActivityId, "Status changed from " ++ cur ++ " to " ++ ch.status, now,
                client.userId, client.username⟩) (some cid) ++
          [(cid, OutMsg.taskUpdateSuccess (applyChanges ch task)
            ⟨st.db.nextActivityId, "Status changed from " ++ cur ++ " to " ++ ch.status, now,
              client.userId, client.username⟩)]) := by
  unfold handleTaskUpdateWrite
  simp only [hfind, Option.map_some']
  rfl

/-! ## Claim C1: the transition validator -/

/-- Counterexample to claim C1 as stated: `"toString"` is outside the four
table keys, yet `validateTaskUpdate` does not return the
`Invalid current status` rejection for it — the object-literal lookup finds
the inherited `Object.prototype.toString` member (truthy), so the falsy
guard is not taken and the `.includes` call of source line 336 throws a
TypeError instead of returning. -/
theorem claim_C1_counterexample :
    ("toString" ∉ ["pending", "in_progress", "completed", "cancelled"]) ∧
    validateTaskUpdate "toString" "pending" = Except.error () := by decide

/-- Claim C1 as amended: `validateTaskUpdate(current, next)` judges a
transition valid exactly when `(current, next)` is in the fixed table; a
current status outside the four keys that is not an `Object.prototype`
property name is rejected with the message naming the invalid current
status; a current status equal to an inherited `Object.prototype` property
name (`toString`, `constructor`, `valueOf`, `__proto__`, ...) makes the
lookup truthy and the function throws a TypeError at the `.includes` call;
a listed current with an unlisted next is rejected with the message
enumerating the valid alternatives for that current status. -/
theorem claim_C1 : ∀ c n : String,
    (validateTaskUpdate c n = Except.ok ⟨true, none⟩ ↔
      (c, n) ∈ [("pending", "in_progress"), ("pending", "completed"), ("pending", "cancelled"),
        ("in_progress", "completed"), ("in_progress", "cancelled"), ("in_progress", "pending"),
        ("completed", "pending"), ("cancelled", "pending")]) ∧
    (c ∉ ["pending", "in_progress", "completed", "cancelled"] → c ∉ objectPrototypeKeys →
      validateTaskUpdate c n = Except.ok ⟨false, some ("Invalid current status: " ++ c)⟩) ∧
    (c ∈ objectPrototypeKeys → validateTaskUpdate c n = Except.error ()) ∧
    (∀ allowed, validTransitions c = TransitionLookup.ownKey allowed → n ∉ allowed →
      validateTaskUpdate c n =
        Except.ok ⟨false, some (invalidTransitionMessage c n allowed)⟩) := by
  intro c n
  by_cases h1 : c = "pending" <;> by_cases h2 : c = "in_progress" <;>
    by_cases h3 : c = "completed" <;> by_cases h4 : c = "cancelled" <;>
    by_cases hp : c ∈ objectPrototypeKeys <;>
    subst_vars <;>
    simp_all [validateTaskUpdate, validTransitions, objectPrototypeKeys] <;>
    by_cases hn1 : n = "in_progress" <;> by_cases hn2 : n = "completed" <;>
    by_cases hn3 : n = "cancelled" <;> by_cases hn4 : n = "pending" <;>
    simp_all

/-- Witness for C1 (amended): an unknown non-prototype current status draws
the `Invalid current status` rejection, a prototype-key current status
makes the validator throw, and a listed current with an unlisted next draws
the enumerating rejection. -/
theorem claim_C1_witness :
    validateTaskUpdate "archived" "pending" =
      Except.ok ⟨false, some "Invalid current status: archived"⟩ ∧
    validateTaskUpdate "valueOf" "pending" = Except.error () ∧
    validateTaskUpdate "completed" "in_progress" =
      Except.ok ⟨false, some (invalidTransitionMessage "completed" "in_progress" ["pending"])⟩ :=
  ⟨(claim_C1 "archived" "pending").2.1 (by decide) (by decide),
    (claim_C1 "valueOf" "pending").2.2.1 (by decide),
    (claim_C1 "completed" "in_progress").2.2.2 ["pending"] (by decide) (by decide)⟩

/-! ## Claim C7: the team-performance metrics -/

/-- Claim C7: for every team member, `calculateTeamPerformance` computes
exactly the reference metrics (on-time rate `round(onTime/total*100)` with
the 100 default at zero assigned, collaboration `min(100, activities)`,
and the weighted total with the inner comment clamp), and on the worked
example — 5 of 5 tasks completed on time, 3 comments, 2 activities — it
yields onTimeCompletion 100, collaborationScore 2 and totalScore 37. -/
theorem claim_C7 :
    (∀ db member, (memberPerformance db member).metrics = specMetrics db member) ∧
    calculateTeamPerformance perfDb =
      [⟨7, "u", "U", "team_member", ⟨5, 100, 3, 2, 37⟩⟩] := by
  constructor
  · intro db member
    unfold memberPerformance specMetrics
    by_cases h : (db.tasks.filter (fun t => t.assignedTo = member.id)).length = 0
    · simp [h]
    · simp [h, Nat.pos_of_ne_zero h]
  · norm_num [calculateTeamPerformance, perfDb, memberPerformance, perfUser, perfTask,
      completedOnTime, jsRound]

/-! ## Reachability of the demo states -/

theorem demoConnected_reachable : Reachable demoConnected :=
  Reachable.connect "a" (Reachable.init emptyDb)

theorem demoRegistered_reachable : Reachable demoRegistered :=
  Reachable.message "a" handshakeRaw 0 demoConnected_reachable (by decide)

theorem demoSubscribed_reachable : Reachable demoSubscribed :=
  Reachable.message "a" subscribeRaw 0 demoRegistered_reachable (by decide)

theorem demoWithTask_reachable : Reachable demoWithTask :=
  Reachable.dbStep demoDb demoRegistered_reachable

theorem demoWithProto_reachable : Reachable demoWithProto :=
  Reachable.dbStep demoProtoDb demoRegistered_reachable

/-! ## Claim C8: no dangling subscriptions -/

/-- Claim C8: in every reachable hub state every subscribed connection id
is a registry key; an unregistered sender cannot subscribe (its messages
have no effect), the close event removes an id from both the subscription
set and the registry, and a timer tick only ever addresses open, registered
connections. -/
theorem claim_C8 {st : HubState} (h : Reachable st) :
    (∀ cid ∈ st.performanceSubscribers, registered st cid = true) ∧
    (∀ cid j now, lookupKey cid st.clients = none →
      handleMessage st cid (RawMsg.json j) now = (st, [])) ∧
    (∀ cid, cid ∉ (closeConn st cid).performanceSubscribers ∧
      registered (closeConn st cid) cid = false) ∧
    (∀ p ∈ tickSends st, registered st p.1 = true ∧ p.1 ∈ st.openConns) := by
  refine ⟨(reachable_wf h).1, ?_, ?_, ?_⟩
  · intro cid j now hnone
    unfold handleMessage
    simp only [hnone]
  · intro cid
    constructor
    · intro hc
      have := List.of_mem_filter hc
      simp at this
    · show (lookupKey cid (st.clients.filter (fun p => p.1 ≠ cid))).isSome = false
      rw [lookupKey_filter_self cid st.clients]
      rfl
  · intro p hp
    unfold tickSends at hp
    split at hp
    · simp at hp
    · obtain ⟨a, ha, hap⟩ := List.mem_filterMap.mp hp
      cases hla : lookupKey a st.clients with
      | none => rw [hla] at hap; simp at hap
      | some c =>
        rw [hla] at hap
        by_cases hao : a ∈ st.openConns
        · rw [if_pos hao] at hap
          obtain rfl := Option.some.inj hap
          exact ⟨by simp [registered, hla], hao⟩
        · rw [if_neg hao] at hap
          simp at hap

/-- Witness for C8 at a concrete reachable state with one subscriber. -/
theorem claim_C8_witness : registered demoSubscribed "a" = true :=
  (claim_C8 demoSubscribed_reachable).1 "a" (by decide)

/-! ## Claim C10: a validated update whose row vanished -/

/-- Claim C10: when the `update ... returning` of a validated `task_update`
returns no row (the task disappeared between read and write), the hub still
inserts the activity record for that task id and sends nothing at all — no
broadcast, no success, no error. -/
theorem claim_C10 (st : HubState) (cid : String) (client : Client) (taskId : Int)
    (ch : Changes) (cur : String) (now : Int)
    (hfind : st.db.tasks.find? (fun t => t.id = taskId) = none) :
    (handleTaskUpdateWrite st cid client taskId ch cur now).1.db.activities =
      st.db.activities ++ [⟨st.db.nextActivityId, taskId, client.userId,
        "Status changed from " ++ cur ++ " to " ++ ch.status, now⟩] ∧
    (handleTaskUpdateWrite st cid client taskId ch cur now).1.db.tasks = st.db.tasks ∧
    (handleTaskUpdateWrite st cid client taskId ch cur now).2 = [] := by
  unfold handleTaskUpdateWrite
  rw [hfind]
  refine ⟨rfl, ?_, rfl⟩
  have hnone : ∀ t ∈ st.db.tasks, (if t.id = taskId then applyChanges ch t else t) = t := by
    intro t ht
    have := List.find?_eq_none.mp hfind t ht
    rw [if_neg (by simpa using this)]
  show st.db.tasks.map (fun t => if t.id = taskId then applyChanges ch t else t) = st.db.tasks
  rw [List.map_congr_left hnone, List.map_id']

/-- Witness for C10: concrete run against an empty task table. -/
theorem claim_C10_witness :
    (handleTaskUpdateWrite demoRegistered "a" ⟨"a", 1, "alice"⟩ 1 ⟨"pending", none, 9⟩
        "completed" 0).1.db.activities =
      [⟨1, 1, 1, "Status changed from completed to pending", 0⟩] ∧
    (handleTaskUpdateWrite demoRegistered "a" ⟨"a", 1, "alice"⟩ 1 ⟨"pending", none, 9⟩
        "completed" 0).2 = [] := by
  have h := claim_C10 demoRegistered "a" ⟨"a", 1, "alice"⟩ 1 ⟨"pending", none, 9⟩
    "completed" 0 (by decide)
  exact ⟨h.1, h.2.2⟩

/-! ## Per-recipient decomposition of a broadcast -/

theorem broadcastList_filter_notMem (opens : List String) (msg : OutMsg) (excl : Option String)
    (x : String) :
    ∀ t : List (String × Client), x ∉ t.map Prod.fst →
      (broadcastList t opens msg excl).filter (fun p => p.1 = x) = [] := by
  intro t
  induction t with
  | nil => intro _; rfl
  | cons q r ih =>
    intro hx
    simp only [List.map_cons, List.mem_cons, not_or] at hx
    obtain ⟨hx1, hx2⟩ := hx
    have hq : ¬ (q.1 = x) := fun hc => hx1 hc.symm
    unfold broadcastList
    rw [List.filterMap_cons]
    by_cases he : excl = some q.1
    · rw [if_pos he]
      exact ih hx2
    · rw [if_neg he]
      by_cases ho : q.1 ∈ opens
      · rw [if_pos ho]
        rw [List.filter_cons_of_neg (by simp [hq])]
        exact ih hx2
      · rw [if_neg ho]
        exact ih hx2

theorem broadcastList_filter_excl (opens : List String) (msg : OutMsg) (cid : String) :
    ∀ t : List (String × Client),
      (broadcastList t opens msg (some cid)).filter (fun p => p.1 = cid) = [] := by
  intro t
  induction t with
  | nil => rfl
  | cons q r ih =>
    unfold broadcastList
    rw [List.filterMap_cons]
    by_cases he : (some cid : Option String) = some q.1
    · rw [if_pos he]
      exact ih
    · rw [if_neg he]
      have hq : ¬ (q.1 = cid) := fun hc => he (by rw [hc])
      by_cases ho : q.1 ∈ opens
      · rw [if_pos ho]
        rw [List.filter_cons_of_neg (by simp [hq])]
        exact ih
      · rw [if_neg ho]
        exact ih

theorem broadcastList_filter_mem (opens : List String) (msg : OutMsg) (cid x : String)
    (hxc : x ≠ cid) :
    ∀ t : List (String × Client), (t.map Prod.fst).Nodup → ∀ c : Client,
      lookupKey x t = some c → x ∈ opens →
      (broadcastList t opens msg (some cid)).filter (fun p => p.1 = x) = [(x, msg)] := by
  intro t
  induction t with
  | nil =>
    intro _ c hc
    simp [lookupKey] at hc
  | cons q r ih =>
    intro hnd c hlk hop
    have hnd1 : q.1 ∉ r.map Prod.fst := by
      simp only [List.map_cons] at hnd
      exact (List.nodup_cons.mp hnd).1
    have hnd2 : (r.map Prod.fst).Nodup := by
      simp only [List.map_cons] at hnd
      exact (List.nodup_cons.mp hnd).2
    by_cases hq : x = q.1
    · have he : ¬ ((some cid : Option String) = some q.1) := by
        intro hc'
        exact hxc (hq.trans (Option.some.inj hc').symm)
      unfold broadcastList
      rw [List.filterMap_cons, if_neg he, if_pos (hq ▸ hop)]
      have hqx : (q.1 = x) := hq.symm
      rw [List.filter_cons_of_pos (by simp [hqx])]
      have hrest : (broadcastList r opens msg (some cid)).filter (fun p => p.1 = x) = [] :=
        broadcastList_filter_notMem opens msg (some cid) x r (hq ▸ hnd1)
      unfold broadcastList at hrest
      rw [hrest, hqx]
    · have hlk' : lookupKey x r = some c := by
        rw [lookupKey, if_neg hq] at hlk
        exact hlk
      have hqx : ¬ (q.1 = x) := fun hc => hq hc.symm
      unfold broadcastList
      rw [List.filterMap_cons]
      by_cases he : (some cid : Option String) = some q.1
      · rw [if_pos he]
        exact ih hnd2 c hlk' hop
      · rw [if_neg he]
        by_cases ho : q.1 ∈ opens
        · rw [if_pos ho]
          rw [List.filter_cons_of_neg (by simp [hqx])]
          exact ih hnd2 c hlk' hop
        · rw [if_neg ho]
          exact ih hnd2 c hlk' hop

/-! ## Claim C3: the accepted-update pipeline -/

/-- Claim C3: an authenticated `task_update` whose transition is in the
table creates exactly one activity record, broadcasts exactly one
`task_update` event — updated task plus activity enriched with the sender's
user id and name — to every other registered connection with an open
channel, and then sends exactly one `task_update_success` with the same
payload to the sender alone. -/
theorem claim_C3 {st : HubState} (h : Reachable st) (cid : String) (client : Client)
    (j : JsonShape) (taskId : Int) (ch : Changes) (now : Int) (task : Task)
    (hcl : lookupKey cid st.clients = some client)
    (hty : j.type = some "task_update") (hti : j.taskId = some taskId)
    (hch : j.changes = some ch) (hnz : taskId ≠ 0)
    (hfind : st.db.tasks.find? (fun t => t.id = taskId) = some task)
    (hv : validateTaskUpdate task.status ch.status = Except.ok ⟨true, none⟩) :
    (handleRaw st cid (RawMsg.json j) now).1.db.activities =
      st.db.activities ++ [⟨st.db.nextActivityId, taskId, client.userId,
        "Status changed from " ++ task.status ++ " to " ++ ch.status, now⟩] ∧
    (handleRaw st cid (RawMsg.json j) now).2 =
      broadcastList st.clients st.openConns
          (OutMsg.taskUpdate (applyChanges ch task)
            ⟨st.db.nextActivityId, "Status changed from " ++ task.status ++ " to " ++ ch.status,
              now, client.userId, client.username⟩) (some cid) ++
        [(cid, OutMsg.taskUpdateSuccess (applyChanges ch task)
          ⟨st.db.nextActivityId, "Status changed from " ++ task.status ++ " to " ++ ch.status,
            now, client.userId, client.username⟩)] ∧
    (∀ x, x ≠ cid → registered st x = true → x ∈ st.openConns →
      (handleRaw st cid (RawMsg.json j) now).2.filter (fun p => p.1 = x) =
        [(x, OutMsg.taskUpdate (applyChanges ch task)
          ⟨st.db.nextActivityId, "Status changed from " ++ task.status ++ " to " ++ ch.status,
            now, client.userId, client.username⟩)]) ∧
    (handleRaw st cid (RawMsg.json j) now).2.filter (fun p => p.1 = cid) =
      [(cid, OutMsg.taskUpdateSuccess (applyChanges ch task)
        ⟨st.db.nextActivityId, "Status changed from " ++ task.status ++ " to " ++ ch.status,
          now, client.userId, client.username⟩)] := by
  have hpend : cid ∉ st.authPending :=
    (reachable_wf h).2.1 cid (by simp [registered, hcl])
  have hru : handleRaw st cid (RawMsg.json j) now =
      handleTaskUpdateWrite st cid client taskId ch task.status now := by
    rw [handleRaw_noPending st cid _ now hpend,
      handleMessage_taskUpdate st cid client j taskId ch now hcl hty hti hch hnz,
      read_valid st cid client taskId ch now task ⟨true, none⟩ hfind hv rfl]
  rw [hru, write_found st cid client taskId ch task.status now task hfind]
  refine ⟨rfl, rfl, ?_, ?_⟩
  · intro x hx hreg hop
    obtain ⟨c, hc⟩ := Option.isSome_iff_exists.mp hreg
    dsimp only
    rw [List.filter_append,
      broadcastList_filter_mem st.openConns _ cid x hx st.clients (reachable_wf h).2.2 c hc hop]
    have hcx : ¬ (cid = x) := fun hc' => hx hc'.symm
    simp [List.filter_cons, hcx]
  · dsimp only
    rw [List.filter_append, broadcastList_filter_excl st.openConns _ cid st.clients]
    simp [List.filter_cons]

/-- Witness for C3 at the concrete one-task state: the sender receives
exactly the success reply carrying the updated task and enriched
activity. -/
theorem claim_C3_witness :
    ((handleRaw demoWithTask "a" (RawMsg.json ⟨some "task_update", none, none, some 1,
        some ⟨"pending", some 99, 9⟩⟩) 0).2.filter (fun p => p.1 = "a")) =
      [("a", OutMsg.taskUpdateSuccess ⟨1, 7, "pending", some 99, 9, some 5⟩
        ⟨1, "Status changed from completed to pending", 0, 1, "alice"⟩)] := by
  have h := claim_C3 demoWithTask_reachable "a" ⟨"a", 1, "alice"⟩
    ⟨some "task_update", none, none, some 1, some ⟨"pending", some 99, 9⟩⟩ 1
    ⟨"pending", some 99, 9⟩ 0 demoTask (by decide) rfl rfl rfl (by decide) (by decide) (by decide)
  exact h.2.2.2

/-! ## Claim C4: persisted fields of an accepted update -/

/-- Counterexample to claim C4 as stated: `completed → pending` is a legal
transition whose target is not `completed`, yet with a non-null payload
`completedAt` the persisted completion timestamp afterwards is present
(99), not absent. -/
theorem claim_C4_counterexample :
    validateTaskUpdate "completed" "pending" = Except.ok ⟨true, none⟩ ∧
    ((handleRaw demoWithTask "a" (RawMsg.json ⟨some "task_update", none, none, some 1,
        some ⟨"pending", some 99, 9⟩⟩) 0).1.db.tasks.find? (fun t => t.id = 1)) =
      some ⟨1, 7, "pending", some 99, 9, some 5⟩ := by decide

/-- Claim C4 as amended: an accepted `task_update` persists — through the
single update-and-return operation — the new status, the update timestamp,
and a completion timestamp equal to the payload's `completedAt` (present
whenever the payload carries one, absent when the payload's is null),
irrespective of whether the target status is `completed`. -/
theorem claim_C4 {st : HubState} (h : Reachable st) (cid : String) (client : Client)
    (j : JsonShape) (taskId : Int) (ch : Changes) (now : Int) (task : Task)
    (hcl : lookupKey cid st.clients = some client)
    (hty : j.type = some "task_update") (hti : j.taskId = some taskId)
    (hch : j.changes = some ch) (hnz : taskId ≠ 0)
    (hfind : st.db.tasks.find? (fun t => t.id = taskId) = some task)
    (hv : validateTaskUpdate task.status ch.status = Except.ok ⟨true, none⟩) :
    (handleRaw st cid (RawMsg.json j) now).1.db.tasks =
      st.db.tasks.map (fun t => if t.id = taskId then applyChanges ch t else t) ∧
    (∀ t : Task, (applyChanges ch t).status = ch.status ∧
      (applyChanges ch t).completedAt = ch.completedAt ∧
      (applyChanges ch t).updatedAt = ch.updatedAt) := by
  have hpend : cid ∉ st.authPending :=
    (reachable_wf h).2.1 cid (by simp [registered, hcl])
  rw [handleRaw_noPending st cid _ now hpend,
    handleMessage_taskUpdate st cid client j taskId ch now hcl hty hti hch hnz,
    read_valid st cid client taskId ch now task ⟨true, none⟩ hfind hv rfl,
    write_found st cid client taskId ch task.status now task hfind]
  exact ⟨rfl, fun t => ⟨rfl, rfl, rfl⟩⟩

/-- Witness for C4: a `completed → pending` update with a null payload
`completedAt` clears the stored completion timestamp. -/
theorem claim_C4_witness :
    (handleRaw demoWithTask "a" (RawMsg.json ⟨some "task_update", none, none, some 1,
        some ⟨"pending", none, 9⟩⟩) 0).1.db.tasks = [⟨1, 7, "pending", none, 9, some 5⟩] := by
  have h := claim_C4 demoWithTask_reachable "a" ⟨"a", 1, "alice"⟩
    ⟨some "task_update", none, none, some 1, some ⟨"pending", none, 9⟩⟩ 1
    ⟨"pending", none, 9⟩ 0 demoTask (by decide) rfl rfl rfl (by decide) (by decide) (by decide)
  exact h.1.trans (by decide)

/-! ## Claim C2: rejected updates -/

/-- Counterexample to claim C2 as stated, at two concrete inputs: (i) a
`task_update` whose `taskId` is 0 (a falsy number) is skipped entirely by
the handler's truthiness guard, so although task id 0 is absent from the
store the sender receives no `TASK_NOT_FOUND` reply at all; (ii) for a
stored task whose status is the `Object.prototype` key `"toString"` — so
that the requested transition `(toString, pending)` is not in the table —
the validator throws and the catch replies `DATABASE_ERROR`, not the
claimed `INVALID_STATUS_TRANSITION`. -/
theorem claim_C2_counterexample :
    (demoWithTask.db.tasks.find? (fun t => t.id = 0) = none ∧
      handleRaw demoWithTask "a" (RawMsg.json ⟨some "task_update", none, none, some 0,
        some ⟨"pending", none, 9⟩⟩) 0 = (demoWithTask, [])) ∧
    (demoWithProto.db.tasks.find? (fun t => t.id = 2) = some demoProtoTask ∧
      handleRaw demoWithProto "a" (RawMsg.json ⟨some "task_update", none, none, some 2,
        some ⟨"pending", none, 9⟩⟩) 0 =
        (demoWithProto,
          [("a", OutMsg.error "DATABASE_ERROR" "Failed to update task in database")])) := by
  decide

/-- Claim C2 as amended: for an authenticated `task_update` with a nonzero
task id and a `changes` object — an id absent from the store yields exactly
one `TASK_NOT_FOUND` error to the sender and no state change; a present id
whose validation returns an invalid result yields exactly one
`INVALID_STATUS_TRANSITION` error to the sender and no state change, the
message enumerating the legal targets whenever the current status is a
table key; a present id whose current status is an inherited
`Object.prototype` key makes the validator throw, and the catch replies
`DATABASE_ERROR` to the sender with no state change.  (A `task_update`
with task id 0 is silently ignored.) -/
theorem claim_C2 {st : HubState} (h : Reachable st) (cid : String) (client : Client)
    (j : JsonShape) (taskId : Int) (ch : Changes) (now : Int)
    (hcl : lookupKey cid st.clients = some client)
    (hty : j.type = some "task_update") (hti : j.taskId = some taskId)
    (hch : j.changes = some ch) (hnz : taskId ≠ 0) :
    (st.db.tasks.find? (fun t => t.id = taskId) = none →
      handleRaw st cid (RawMsg.json j) now =
        (st, [(cid, OutMsg.error "TASK_NOT_FOUND" "Task not found")])) ∧
    (∀ task v, st.db.tasks.find? (fun t => t.id = taskId) = some task →
      validateTaskUpdate task.status ch.status = Except.ok v →
      v.isValid = false →
      handleRaw st cid (RawMsg.json j) now =
        (st, [(cid, OutMsg.error "INVALID_STATUS_TRANSITION" (v.message.getD ""))]) ∧
      (∀ allowed, validTransitions task.status = TransitionLookup.ownKey allowed →
        v.message = some (invalidTransitionMessage task.status ch.status allowed))) ∧
    (∀ task, st.db.tasks.find? (fun t => t.id = taskId) = some task →
      validateTaskUpdate task.status ch.status = Except.error () →
      handleRaw st cid (RawMsg.json j) now =
        (st, [(cid, OutMsg.error "DATABASE_ERROR" "Failed to update task in database")])) := by
  have hpend : cid ∉ st.authPending :=
    (reachable_wf h).2.1 cid (by simp [registered, hcl])
  have hbase : handleRaw st cid (RawMsg.json j) now =
      handleTaskUpdateRead st cid client taskId ch now := by
    rw [handleRaw_noPending st cid _ now hpend,
      handleMessage_taskUpdate st cid client j taskId ch now hcl hty hti hch hnz]
  refine ⟨?_, ?_, ?_⟩
  · intro hfind
    rw [hbase, read_notFound st cid client taskId ch now hfind]
  · intro task v hfind hval hvi
    refine ⟨by rw [hbase, read_invalid st cid client taskId ch now task v hfind hval hvi], ?_⟩
    intro allowed hall
    by_cases hmem : ch.status ∈ allowed
    · exfalso
      have hvt : validateTaskUpdate task.status ch.status = Except.ok ⟨true, none⟩ := by
        unfold validateTaskUpdate
        simp only [hall]
        rw [if_pos hmem]
      rw [hvt] at hval
      injection hval with hveq
      rw [← hveq] at hvi
      cases hvi
    · have hred : validateTaskUpdate task.status ch.status =
          Except.ok ⟨false, some (invalidTransitionMessage task.status ch.status allowed)⟩ := by
        unfold validateTaskUpdate
        simp only [hall]
        rw [if_neg hmem]
      rw [hred] at hval
      injection hval with hveq
      rw [← hveq]
  · intro task hfind hval
    rw [hbase, read_dbError st cid client taskId ch now task hfind hval]

/-- Witness for C2 (amended): a nonzero absent task id draws exactly the
`TASK_NOT_FOUND` reply with the state unchanged, and a stored
prototype-key status draws exactly the `DATABASE_ERROR` reply. -/
theorem claim_C2_witness :
    (handleRaw demoWithTask "a" (RawMsg.json ⟨some "task_update", none, none, some 5,
        some ⟨"pending", none, 9⟩⟩) 0 =
      (demoWithTask, [("a", OutMsg.error "TASK_NOT_FOUND" "Task not found")])) ∧
    (handleRaw demoWithProto "a" (RawMsg.json ⟨some "task_update", none, none, some 2,
        some ⟨"completed", none, 9⟩⟩) 0 =
      (demoWithProto,
        [("a", OutMsg.error "DATABASE_ERROR" "Failed to update task in database")])) :=
  ⟨(claim_C2 demoWithTask_reachable "a" ⟨"a", 1, "alice"⟩
      ⟨some "task_update", none, none, some 5, some ⟨"pending", none, 9⟩⟩ 5
      ⟨"pending", none, 9⟩ 0 (by decide) rfl rfl rfl (by decide)).1 (by decide),
    (claim_C2 demoWithProto_reachable "a" ⟨"a", 1, "alice"⟩
      ⟨some "task_update", none, none, some 2, some ⟨"completed", none, 9⟩⟩ 2
      ⟨"completed", none, 9⟩ 0 (by decide) rfl rfl rfl (by decide)).2.2 demoProtoTask
      (by decide) (by decide)⟩

/-! ## Claim C5: failed handshakes -/

/-- Counterexample to claim C5 as stated: a handshake that parses but lacks
`userId` leaves the channel OPEN (the auth handler's catch only fires on a
parse exception); no registry entry is created, but the connection is not
closed. -/
theorem claim_C5_counterexample :
    ("a" ∈ (handleRaw demoConnected "a"
        (RawMsg.json ⟨none, none, some "alice", none, none⟩) 0).1.openConns) ∧
    (handleRaw demoConnected "a"
        (RawMsg.json ⟨none, none, some "alice", none, none⟩) 0).1.clients = [] := by decide

/-- Claim C5 as amended: a first (handshake) frame that fails JSON parsing
makes the hub close the channel and register nothing (a generic
`MESSAGE_PARSE_ERROR` reply is also emitted by the persistent listener);
a parsed handshake with missing or falsy `userId` or `username` registers
nothing and sends nothing, but leaves the channel open. -/
theorem claim_C5 (st : HubState) (cid : String) (now : Int)
    (hpend : cid ∈ st.authPending) (hunreg : registered st cid = false)
    (hopen : cid ∈ st.openConns) :
    (cid ∉ (handleRaw st cid RawMsg.notJson now).1.openConns ∧
      registered (handleRaw st cid RawMsg.notJson now).1 cid = false ∧
      (handleRaw st cid RawMsg.notJson now).2 =
        [(cid, OutMsg.error "MESSAGE_PARSE_ERROR" "Invalid message format")]) ∧
    (∀ j : JsonShape, truthyInt j.userId = false ∨ truthyStr j.username = false →
      (handleRaw st cid (RawMsg.json j) now).1 =
        { st with authPending := st.authPending.filter (fun x => x ≠ cid) } ∧
      cid ∈ (handleRaw st cid (RawMsg.json j) now).1.openConns ∧
      registered (handleRaw st cid (RawMsg.json j) now).1 cid = false ∧
      (handleRaw st cid (RawMsg.json j) now).2 = []) := by
  have hnone : lookupKey cid st.clients = none := by
    cases hlk : lookupKey cid st.clients with
    | none => rfl
    | some c =>
      rw [registered, hlk] at hunreg
      simp at hunreg
  constructor
  · have h1 : handleRaw st cid RawMsg.notJson now =
        ({ st with
            authPending := st.authPending.filter (fun x => x ≠ cid),
            openConns := st.openConns.filter (fun x => x ≠ cid) },
          [(cid, OutMsg.error "MESSAGE_PARSE_ERROR" "Invalid message format")]) := by
      have hmsgN : handleMessage st cid RawMsg.notJson now =
          (st, [(cid, OutMsg.error "MESSAGE_PARSE_ERROR" "Invalid message format")]) := rfl
      unfold handleRaw
      simp only [hmsgN]
      rw [if_pos hpend]
      rfl
    rw [h1]
    refine ⟨?_, hunreg, rfl⟩
    intro hc
    have := List.of_mem_filter hc
    simp at this
  · intro j hj
    have hmsg : handleMessage st cid (RawMsg.json j) now = (st, []) := by
      unfold handleMessage
      simp only [hnone]
    have hauth : ∀ stx : HubState, handleAuth stx cid (RawMsg.json j) = (stx, []) := by
      intro stx
      cases hu : j.userId with
      | none => simp [handleAuth, hu]
      | some u =>
        cases hn : j.username with
        | none => simp [handleAuth, hu, hn]
        | some n =>
          have hcond : ¬ (u ≠ 0 ∧ n ≠ "") := by
            intro hc
            rw [hu] at hj
            rw [hn] at hj
            rcases hj with hb | hb
            · unfold truthyInt at hb
              simp at hb
              exact hc.1 hb
            · unfold truthyStr at hb
              simp at hb
              exact hc.2 hb
          simp [handleAuth, hu, hn, hcond]
    have hraw : handleRaw st cid (RawMsg.json j) now =
        ({ st with authPending := st.authPending.filter (fun x => x ≠ cid) }, []) := by
      unfold handleRaw
      simp only [hmsg]
      rw [if_pos hpend, hauth]
      rfl
    rw [hraw]
    exact ⟨rfl, hopen, hunreg, rfl⟩

/-- Witness for C5 (amended): a non-JSON handshake draws the parse-error
reply (and the close), while a parsed handshake missing `userId` draws no
reply at all. -/
theorem claim_C5_witness :
    (handleRaw demoConnected "a" RawMsg.notJson 0).2 =
      [("a", OutMsg.error "MESSAGE_PARSE_ERROR" "Invalid message format")] ∧
    (handleRaw demoConnected "a" (RawMsg.json ⟨none, none, some "alice", none, none⟩) 0).2 =
      [] :=
  ⟨(claim_C5 demoConnected "a" 0 (by decide) (by decide) (by decide)).1.2.2,
    ((claim_C5 demoConnected "a" 0 (by decide) (by decide) (by decide)).2
      ⟨none, none, some "alice", none, none⟩ (Or.inl (by decide))).2.2.2⟩

/-! ## Claim C6: malformed post-authentication messages -/

/-- Counterexample to claim C6 as stated: an authenticated sender's
well-formed JSON message with the unrecognized type tag `"bogus"` is
silently ignored — no `MESSAGE_PARSE_ERROR` reply is sent. -/
theorem claim_C6_counterexample :
    registered demoRegistered "a" = true ∧
    handleRaw demoRegistered "a" (RawMsg.json ⟨some "bogus", none, none, none, none⟩) 0 =
      (demoRegistered, []) := by decide

/-- Claim C6 as amended: for an authenticated connection, a non-JSON frame
yields exactly one `MESSAGE_PARSE_ERROR` reply to the sender, leaves the
connection open and changes no state; a parsed frame that matches neither
recognized kind (unknown type tag, or a `task_update` with falsy `taskId`
or missing `changes`) is silently ignored: no reply, no state change, and
the connection is not closed. -/
theorem claim_C6 {st : HubState} (h : Reachable st) (cid : String) (client : Client) (now : Int)
    (hcl : lookupKey cid st.clients = some client) :
    handleRaw st cid RawMsg.notJson now =
      (st, [(cid, OutMsg.error "MESSAGE_PARSE_ERROR" "Invalid message format")]) ∧
    (∀ j : JsonShape, j.type ≠ some "subscribe_team_performance" →
      j.type ≠ some "task_update" ∨ truthyInt j.taskId = false ∨ j.changes = none →
      handleRaw st cid (RawMsg.json j) now = (st, [])) := by
  have hpend : cid ∉ st.authPending :=
    (reachable_wf h).2.1 cid (by simp [registered, hcl])
  constructor
  · rw [handleRaw_noPending st cid _ now hpend]
    rfl
  · intro j hsub hbad
    rw [handleRaw_noPending st cid _ now hpend]
    unfold handleMessage
    simp only [hcl]
    simp only [if_neg hsub]
    cases hti : j.taskId with
    | none => cases hch : j.changes <;> rfl
    | some tid =>
      cases hch : j.changes with
      | none => rfl
      | some ch =>
        dsimp only
        have hcond : ¬ (j.type = some "task_update" ∧ tid ≠ 0) := by
          intro hc
          rcases hbad with hb | hb | hb
          · exact hb hc.1
          · rw [hti] at hb
            unfold truthyInt at hb
            simp at hb
            exact hc.2 hb
          · rw [hch] at hb
            cases hb
        rw [if_neg hcond]

/-- Witness for C6 (amended): the parse-error reply on a non-JSON frame,
and silence on an unknown type tag. -/
theorem claim_C6_witness :
    handleRaw demoRegistered "a" RawMsg.notJson 0 =
      (demoRegistered, [("a", OutMsg.error "MESSAGE_PARSE_ERROR" "Invalid message format")]) ∧
    handleRaw demoRegistered "a" (RawMsg.json ⟨some "mystery", none, none, none, none⟩) 0 =
      (demoRegistered, []) :=
  ⟨(claim_C6 demoRegistered_reachable "a" ⟨"a", 1, "alice"⟩ 0 (by decide)).1,
    (claim_C6 demoRegistered_reachable "a" ⟨"a", 1, "alice"⟩ 0 (by decide)).2
      ⟨some "mystery", none, none, none, none⟩ (by decide) (Or.inl (by decide))⟩

/-! ## Claim C9: subscription triggers a broadcast to all subscribers -/

/-- Claim C9: an authenticated `subscribe_team_performance` adds the
sender's connection id to the subscription set and immediately recomputes
the snapshot and pushes it: every id in the (new) subscription set whose
channel is open receives the refreshed `team_performance` message, not just
the new subscriber. -/
theorem claim_C9 {st : HubState} (h : Reachable st) (cid : String) (client : Client)
    (j : JsonShape) (now : Int)
    (hcl : lookupKey cid st.clients = some client)
    (hty : j.type = some "subscribe_team_performance") :
    (handleRaw st cid (RawMsg.json j) now).1 =
      { st with performanceSubscribers := addSub cid st.performanceSubscribers } ∧
    (handleRaw st cid (RawMsg.json j) now).2 =
      broadcastTeamPerformance
        { st with performanceSubscribers := addSub cid st.performanceSubscribers } ∧
    (∀ x ∈ addSub cid st.performanceSubscribers, x ∈ st.openConns →
      (x, OutMsg.teamPerformance (calculateTeamPerformance st.db)) ∈
        (handleRaw st cid (RawMsg.json j) now).2) := by
  have hpend : cid ∉ st.authPending :=
    (reachable_wf h).2.1 cid (by simp [registered, hcl])
  have hr : handleRaw st cid (RawMsg.json j) now =
      ({ st with performanceSubscribers := addSub cid st.performanceSubscribers },
        broadcastTeamPerformance
          { st with performanceSubscribers := addSub cid st.performanceSubscribers }) := by
    rw [handleRaw_noPending st cid _ now hpend,
      handleMessage_subscribe st cid client j now hcl hty]
  refine ⟨by rw [hr], by rw [hr], ?_⟩
  intro x hx hop
  have hreg : (lookupKey x st.clients).isSome = true := by
    unfold addSub at hx
    by_cases hc : cid ∈ st.performanceSubscribers
    · rw [if_pos hc] at hx
      exact (reachable_wf h).1 x hx
    · rw [if_neg hc] at hx
      rcases List.mem_cons.mp hx with rfl | hxm
      · simp [hcl]
      · exact (reachable_wf h).1 x hxm
  obtain ⟨c, hc2⟩ := Option.isSome_iff_exists.mp hreg
  rw [hr]
  unfold broadcastTeamPerformance
  apply List.mem_filterMap.mpr
  refine ⟨x, hx, ?_⟩
  dsimp only
  simp only [hc2]
  rw [if_pos hop]

/-- Witness for C9: the just-subscribed connection receives the snapshot
immediately. -/
theorem claim_C9_witness :
    ("a", OutMsg.teamPerformance (calculateTeamPerformance emptyDb)) ∈
      (handleRaw demoRegistered "a" subscribeRaw 0).2 := by
  have h := claim_C9 demoRegistered_reachable "a" ⟨"a", 1, "alice"⟩
    ⟨some "subscribe_team_performance", none, none, none, none⟩ 0 (by decide) rfl
  exact h.2.2 "a" (by decide) (by decide)

end Hub
